import Mathlib

/- Shallow embedding of src/cmd2/rich_utils.py.

Dictionaries (Python dict objects, here style tables mapping style names to
styles) are modelled as association lists kept in insertion order.  Object
identity of the two module-level dictionaries (RichHelpFormatter.styles and
DEFAULT_RICH_ARGPARSE_STYLES) matters for the copy/aliasing claims, so those
dictionaries live in an explicit heap of cells addressed by natural numbers;
a Python `.copy()` is modelled as allocating a fresh cell holding the same
contents. -/

/-- Rich style descriptor.  The module constructs styles only from a color
name (rich_utils.py lines 19-26) and otherwise treats styles as values
compared for equality, so one optional color field suffices. -/
structure Style where
  color : Option String
  deriving DecidableEq

/-- style_success = Style(color="green") (line 19). -/
def style_success : Style := ⟨some "green"⟩

/-- style_warning = Style(color="bright_yellow") (line 22). -/
def style_warning : Style := ⟨some "bright_yellow"⟩

/-- style_failure = Style(color="bright_red") (line 25). -/
def style_failure : Style := ⟨some "bright_red"⟩

/-- class AllowStyle(Enum) (lines 29-42). -/
inductive AllowStyle where
  | ALWAYS
  | NEVER
  | TERMINAL
  deriving DecidableEq

/-- The string payload of each enum member (self.value). -/
def AllowStyle.value : AllowStyle → String
  | .ALWAYS => "Always"
  | .NEVER => "Never"
  | .TERMINAL => "Terminal"

/-- The symbolic member name, as Python's default Enum machinery reports it. -/
def AllowStyle.pyName : AllowStyle → String
  | .ALWAYS => "ALWAYS"
  | .NEVER => "NEVER"
  | .TERMINAL => "TERMINAL"

/-- AllowStyle.__str__ (lines 36-38): return str(self.value); the value is
already a str, so str is the identity on it. -/
def AllowStyle.str (a : AllowStyle) : String := a.value

/-- Python's repr of a plain string containing no quote or escape
characters: the string wrapped in single quotes (\x27). -/
def pyStrRepr (s : String) : String := "\x27" ++ s ++ "\x27"

/-- AllowStyle.__repr__ (lines 40-42): return repr(self.value). -/
def AllowStyle.repr (a : AllowStyle) : String := pyStrRepr a.value

/-- What Python's default Enum repr would produce for a member, for
contrast with the override. -/
def AllowStyle.defaultEnumRepr (a : AllowStyle) : String :=
  "<AllowStyle." ++ a.pyName ++ ": " ++ pyStrRepr a.value ++ ">"

/-- rich.theme.Theme as this module uses it: only its mapping of style
names to styles is read (theme.styles.items()), in insertion order. -/
structure Theme where
  styles : List (String × Style)
  deriving DecidableEq

/-- Contents of a style-table dictionary. -/
abbrev StyleDict := List (String × Style)

/-- Dictionary lookup: the first binding for the key wins (a Python dict
holds at most one binding per key). -/
def dictLookup : StyleDict → String → Option Style
  | [], _ => none
  | (k, v) :: rest, key => if k = key then some v else dictLookup rest key

/-- Python membership test `key in d`. -/
def dictMem (d : StyleDict) (key : String) : Bool := (dictLookup d key).isSome

/-- Python assignment `d[key] = v`: replaces the existing binding in place
when the key is present, otherwise appends a new binding at the end. -/
def dictSet : StyleDict → String → Style → StyleDict
  | [], key, v => [(key, v)]
  | (k, w) :: rest, key, v =>
      if k = key then (key, v) :: rest else (k, w) :: dictSet rest key v

/-- Read cell r of a heap list; a dangling reference reads as [] (the
module invariant keeps every live reference in range). -/
def listRead : List StyleDict → Nat → StyleDict
  | [], _ => []
  | d :: _, 0 => d
  | _ :: rest, n + 1 => listRead rest n

/-- Overwrite cell r of a heap list; out-of-range writes are dropped. -/
def listWrite : List StyleDict → Nat → StyleDict → List StyleDict
  | [], _, _ => []
  | _ :: rest, 0, d => d :: rest
  | x :: rest, n + 1, d => x :: listWrite rest n d

/-- Heap of dictionary objects; a reference is an index into cells. -/
structure Heap where
  cells : List StyleDict
  deriving DecidableEq

def Heap.read (h : Heap) (r : Nat) : StyleDict := listRead h.cells r

def Heap.write (h : Heap) (r : Nat) (d : StyleDict) : Heap := ⟨listWrite h.cells r d⟩

/-- Allocate a fresh dictionary object (models construction of a new dict,
in particular `.copy()`), returning the new heap and the fresh reference. -/
def Heap.alloc (h : Heap) (d : StyleDict) : Heap × Nat :=
  (⟨h.cells ++ [d]⟩, h.cells.length)

/-- The module's process-wide state.  RichHelpFormatter_styles is the class
attribute RichHelpFormatter.styles (a reference to a dict owned by
rich-argparse); DEFAULT_RICH_ARGPARSE_STYLES is the module-level snapshot
taken at load (line 52).  The three semantic styles are module globals that
no code in this module reassigns. -/
structure ModuleState where
  heap : Heap
  style_success : Style
  style_warning : Style
  style_failure : Style
  allow_style : AllowStyle
  THEME : Option Theme
  DEFAULT_RICH_ARGPARSE_STYLES : Nat
  RichHelpFormatter_styles : Nat
  deriving DecidableEq

/-- Module import: runs the top-level statements of rich_utils.py, given the
pre-existing contents of RichHelpFormatter.styles.  allow_style starts as
TERMINAL (line 46), THEME as None (line 49), and line 52 stores a copy of
the formatter's style table as the defaults snapshot. -/
def moduleLoad (formatterStyles : StyleDict) : ModuleState :=
  let a1 := Heap.alloc ⟨[]⟩ formatterStyles
  let a2 := Heap.alloc a1.1 (a1.1.read a1.2)
  { heap := a2.1
    style_success := style_success
    style_warning := style_warning
    style_failure := style_failure
    allow_style := AllowStyle.TERMINAL
    THEME := none
    DEFAULT_RICH_ARGPARSE_STYLES := a2.2
    RichHelpFormatter_styles := a1.2 }

/-- The loop of set_theme (lines 68-70): for name, style in
theme.styles.items(): if name in RichHelpFormatter.styles:
RichHelpFormatter.styles[name] = style.  The membership test is against the
evolving table, exactly as in the source. -/
def applyTheme : List (String × Style) → StyleDict → StyleDict
  | [], tbl => tbl
  | (name, style) :: rest, tbl =>
      applyTheme rest (if dictMem tbl name then dictSet tbl name style else tbl)

/-- set_theme (lines 55-70).  Assigns the global THEME, then on None rebinds
RichHelpFormatter.styles to a fresh copy of the defaults snapshot, and on a
theme mutates the formatter's table in place through the loop. -/
def set_theme (s : ModuleState) (theme : Option Theme) : ModuleState :=
  let s1 := { s with THEME := theme }
  match theme with
  | none =>
      let a := s1.heap.alloc (s1.heap.read s1.DEFAULT_RICH_ARGPARSE_STYLES)
      { s1 with heap := a.1, RichHelpFormatter_styles := a.2 }
  | some t =>
      let tbl := s1.heap.read s1.RichHelpFormatter_styles
      { s1 with
        heap := s1.heap.write s1.RichHelpFormatter_styles (applyTheme t.styles tbl) }

/-- An output handle, characterized by the one thing the module asks the
engine about it: whether a plain Console bound to it reports itself
interactive. -/
structure PyFile where
  is_interactive : Bool
  deriving DecidableEq

/-- The probe `Console(file=file).is_interactive` (lines 87-88): an external
engine query fully determined by the handle. -/
def consoleIsInteractive (file : PyFile) : Bool := file.is_interactive

/-- The argument bundle Cmd2Console.__init__ passes to the underlying
Console constructor (lines 94-102).  force_terminal and force_interactive
are none when the keyword is not passed at all. -/
structure ConsoleArgs where
  file : PyFile
  tab_size : Nat
  markup : Bool
  emoji : Bool
  highlight : Bool
  theme : Option Theme
  force_terminal : Option Bool
  force_interactive : Option Bool
  deriving DecidableEq

/-- Cmd2Console.__init__ (lines 76-102).  Builds kwargs from the current
allow_style policy, probing interactivity with a throwaway console under
ALWAYS, then calls the engine constructor with the fixed parameters and the
current THEME.  It writes no module global, so the state comes back
unchanged alongside the constructor arguments. -/
def Cmd2Console.init (s : ModuleState) (file : PyFile) : ModuleState × ConsoleArgs :=
  let kwargs : Option Bool × Option Bool :=
    if s.allow_style = AllowStyle.ALWAYS then
      (some true, some (consoleIsInteractive file))
    else if s.allow_style = AllowStyle.NEVER then
      (some false, none)
    else
      (none, none)
  (s,
    { file := file
      tab_size := 4
      markup := false
      emoji := false
      highlight := false
      theme := s.THEME
      force_terminal := kwargs.1
      force_interactive := kwargs.2 })

/-- Python exceptions relevant to on_broken_pipe; OtherExc stands for any
exception that is neither SystemExit nor BrokenPipeError. -/
inductive PyExc where
  | SystemExit
  | BrokenPipeError
  | OtherExc (code : Nat)
  deriving DecidableEq

/-- Outcome of running a Python call: normal return or a raised exception. -/
inductive Outcome where
  | ok
  | exn (e : PyExc)
  deriving DecidableEq

/-- Cmd2Console.on_broken_pipe (lines 104-110), parameterized by the outcome
of the external call super().on_broken_pipe() (rich's handler, whose
documented behavior is to raise SystemExit): try the super call, swallow a
SystemExit, let any other exception propagate, and otherwise raise
BrokenPipeError. -/
def on_broken_pipe (superOutcome : Outcome) : Outcome :=
  let afterTry : Outcome :=
    match superOutcome with
    | .ok => .ok
    | .exn PyExc.SystemExit => .ok
    | .exn e => .exn e
  match afterTry with
  | .ok => .exn PyExc.BrokenPipeError
  | .exn e => .exn e

/-- An external in-place assignment RichHelpFormatter.styles[key] = v made
by a consumer after the module code has run: the later mutation of the
table that the specification quantifies over. -/
def mutateFormatterEntry (s : ModuleState) (key : String) (v : Style) : ModuleState :=
  { s with
    heap := s.heap.write s.RichHelpFormatter_styles
      (dictSet (s.heap.read s.RichHelpFormatter_styles) key v) }

/-- The operations this module exposes that touch or read module state. -/
inductive ModuleOp where
  | opSetTheme (t : Option Theme)
  | opMakeConsole (f : PyFile)

def applyOp (s : ModuleState) : ModuleOp → ModuleState
  | .opSetTheme t => set_theme s t
  | .opMakeConsole f => (Cmd2Console.init s f).1

def runOps (s : ModuleState) : List ModuleOp → ModuleState
  | [] => s
  | op :: rest => runOps (applyOp s op) rest

/-- Well-formedness of the module state: both dictionary references are
live and they are distinct objects. -/
def ModuleState.valid (s : ModuleState) : Prop :=
  s.RichHelpFormatter_styles < s.heap.cells.length ∧
  s.DEFAULT_RICH_ARGPARSE_STYLES < s.heap.cells.length ∧
  s.RichHelpFormatter_styles ≠ s.DEFAULT_RICH_ARGPARSE_STYLES

/-- Invariant carried along runs started from moduleLoad d: the state is
well formed, the snapshot reference is the one allocated at load, and the
snapshot object still holds the table contents captured at load. -/
def StateInv (d : StyleDict) (s : ModuleState) : Prop :=
  s.valid ∧
  s.DEFAULT_RICH_ARGPARSE_STYLES = (moduleLoad d).DEFAULT_RICH_ARGPARSE_STYLES ∧
  s.heap.read s.DEFAULT_RICH_ARGPARSE_STYLES = d

theorem dictLookup_dictSet_self (d : StyleDict) (k : String) (v : Style) :
    dictLookup (dictSet d k v) k = some v := by
  induction d with
  | nil => simp [dictSet, dictLookup]
  | cons hd tl ih =>
      obtain ⟨k0, w⟩ := hd
      by_cases h : k0 = k
      · subst h
        simp [dictSet, dictLookup]
      · simp [dictSet, dictLookup, h, ih]

theorem dictLookup_dictSet_ne (d : StyleDict) (k n : String) (v : Style) (h : k ≠ n) :
    dictLookup (dictSet d k v) n = dictLookup d n := by
  induction d with
  | nil => simp [dictSet, dictLookup, h]
  | cons hd tl ih =>
      obtain ⟨k0, w⟩ := hd
      by_cases h0 : k0 = k
      · subst h0
        simp [dictSet, dictLookup, h]
      · simp [dictSet, dictLookup, h0, ih]

theorem dictMem_dictSet_ne (d : StyleDict) (k n : String) (v : Style) (h : k ≠ n) :
    dictMem (dictSet d k v) n = dictMem d n := by
  simp [dictMem, dictLookup_dictSet_ne d k n v h]

theorem map_fst_dictSet (d : StyleDict) (k : String) (v : Style)
    (h : dictMem d k = true) :
    (dictSet d k v).map Prod.fst = d.map Prod.fst := by
  induction d with
  | nil => simp [dictMem, dictLookup] at h
  | cons hd tl ih =>
      obtain ⟨k0, w⟩ := hd
      by_cases h0 : k0 = k
      · subst h0
        simp [dictSet]
      · have hmem : dictMem tl k = true := by
          simpa [dictMem, dictLookup, h0] using h
        simp [dictSet, h0, ih hmem]

theorem dictLookup_eq_none_of_not_mem (d : StyleDict) (n : String)
    (h : n ∉ d.map Prod.fst) :
    dictLookup d n = none := by
  induction d with
  | nil => rfl
  | cons hd tl ih =>
      obtain ⟨k0, w⟩ := hd
      simp only [List.map_cons, List.mem_cons] at h
      push_neg at h
      have hk : k0 ≠ n := fun hk => h.1 hk.symm
      simp [dictLookup, hk, ih h.2]

theorem applyTheme_lookup_of_none (items : List (String × Style)) (tbl : StyleDict)
    (n : String) (h : dictLookup items n = none) :
    dictLookup (applyTheme items tbl) n = dictLookup tbl n := by
  induction items generalizing tbl with
  | nil => rfl
  | cons hd rest ih =>
      obtain ⟨k, v⟩ := hd
      by_cases hk : k = n
      · subst hk
        simp [dictLookup] at h
      · have hrest : dictLookup rest n = none := by
          simpa [dictLookup, hk] using h
        by_cases hm : dictMem tbl k = true
        · simp only [applyTheme, hm, if_pos]
          rw [ih (dictSet tbl k v) hrest, dictLookup_dictSet_ne tbl k n v hk]
        · simp only [applyTheme, hm]
          simp only [Bool.false_eq_true, if_false]
          exact ih tbl hrest

theorem applyTheme_map_fst (items : List (String × Style)) (tbl : StyleDict) :
    (applyTheme items tbl).map Prod.fst = tbl.map Prod.fst := by
  induction items generalizing tbl with
  | nil => rfl
  | cons hd rest ih =>
      obtain ⟨k, v⟩ := hd
      by_cases hm : dictMem tbl k = true
      · simp only [applyTheme, hm, if_pos]
        rw [ih (dictSet tbl k v), map_fst_dictSet tbl k v hm]
      · simp only [applyTheme, hm]
        simp only [Bool.false_eq_true, if_false]
        exact ih tbl

theorem applyTheme_lookup_shared (items : List (String × Style)) (tbl : StyleDict)
    (n : String) (st : Style)
    (hnd : (items.map Prod.fst).Nodup)
    (hin : dictLookup items n = some st)
    (hmem : dictMem tbl n = true) :
    dictLookup (applyTheme items tbl) n = some st := by
  induction items generalizing tbl with
  | nil => simp [dictLookup] at hin
  | cons hd rest ih =>
      obtain ⟨k, v⟩ := hd
      simp only [List.map_cons, List.nodup_cons] at hnd
      by_cases hk : k = n
      · subst hk
        have hv : v = st := by simpa [dictLookup] using hin
        have hrest : dictLookup rest k = none :=
          dictLookup_eq_none_of_not_mem rest k hnd.1
        simp only [applyTheme, hmem, if_pos]
        rw [applyTheme_lookup_of_none rest (dictSet tbl k v) k hrest,
          dictLookup_dictSet_self tbl k v, hv]
      · have hrest : dictLookup rest n = some st := by
          simpa [dictLookup, hk] using hin
        by_cases hm : dictMem tbl k = true
        · simp only [applyTheme, hm, if_pos]
          exact ih (dictSet tbl k v) hnd.2 hrest
            (by rw [dictMem_dictSet_ne tbl k n v hk]; exact hmem)
        · simp only [applyTheme, hm]
          simp only [Bool.false_eq_true, if_false]
          exact ih tbl hnd.2 hrest hmem

theorem listWrite_length (l : List StyleDict) (r : Nat) (d : StyleDict) :
    (listWrite l r d).length = l.length := by
  induction l generalizing r with
  | nil => rfl
  | cons x xs ih =>
      cases r with
      | zero => rfl
      | succ r0 => simp [listWrite, ih r0]

theorem listRead_listWrite_self (l : List StyleDict) (r : Nat) (d : StyleDict)
    (h : r < l.length) :
    listRead (listWrite l r d) r = d := by
  induction l generalizing r with
  | nil => simp at h
  | cons x xs ih =>
      cases r with
      | zero => rfl
      | succ r0 =>
          simp only [List.length_cons, Nat.succ_lt_succ_iff] at h
          simpa [listWrite, listRead] using ih r0 h

theorem listRead_listWrite_ne (l : List StyleDict) (r n : Nat) (d : StyleDict)
    (h : r ≠ n) :
    listRead (listWrite l r d) n = listRead l n := by
  induction l generalizing r n with
  | nil => rfl
  | cons x xs ih =>
      cases r with
      | zero =>
          cases n with
          | zero => exact absurd rfl h
          | succ n0 => rfl
      | succ r0 =>
          cases n with
          | zero => rfl
          | succ n0 =>
              have h0 : r0 ≠ n0 := fun he => h (by rw [he])
              simpa [listWrite, listRead] using ih r0 n0 h0

theorem listRead_append_lt (l : List StyleDict) (d : StyleDict) (r : Nat)
    (h : r < l.length) :
    listRead (l ++ [d]) r = listRead l r := by
  induction l generalizing r with
  | nil => simp at h
  | cons x xs ih =>
      cases r with
      | zero => rfl
      | succ r0 =>
          simp only [List.length_cons, Nat.succ_lt_succ_iff] at h
          simpa [listRead] using ih r0 h

theorem listRead_append_len (l : List StyleDict) (d : StyleDict) :
    listRead (l ++ [d]) l.length = d := by
  induction l with
  | nil => rfl
  | cons x xs ih => simpa [listRead] using ih

theorem stateInv_applyOp (d : StyleDict) (s : ModuleState) (op : ModuleOp)
    (h : StateInv d s) : StateInv d (applyOp s op) := by
  obtain ⟨⟨hf, hd, hne⟩, href, hval⟩ := h
  cases op with
  | opMakeConsole f => exact ⟨⟨hf, hd, hne⟩, href, hval⟩
  | opSetTheme t =>
      cases t with
      | none =>
          refine ⟨⟨?_, ?_, ?_⟩, ?_, ?_⟩
          · simp [applyOp, set_theme, Heap.alloc]
          · simp only [applyOp, set_theme, Heap.alloc, List.length_append,
              List.length_cons, List.length_nil]
            omega
          · simp only [applyOp, set_theme, Heap.alloc]
            omega
          · exact href
          · simp only [applyOp, set_theme, Heap.alloc, Heap.read]
            rw [listRead_append_lt _ _ _ hd]
            exact hval
      | some th =>
          refine ⟨⟨?_, ?_, ?_⟩, href, ?_⟩
          · simpa [applyOp, set_theme, Heap.write, listWrite_length] using hf
          · simpa [applyOp, set_theme, Heap.write, listWrite_length] using hd
          · simpa [applyOp, set_theme] using hne
          · simp only [applyOp, set_theme, Heap.write, Heap.read]
            rw [listRead_listWrite_ne _ _ _ _ hne]
            exact hval

theorem stateInv_runOps (d : StyleDict) (s : ModuleState) (ops : List ModuleOp)
    (h : StateInv d s) : StateInv d (runOps s ops) := by
  induction ops generalizing s with
  | nil => exact h
  | cons op rest ih => exact ih (applyOp s op) (stateInv_applyOp d s op h)

theorem stateInv_moduleLoad (d : StyleDict) : StateInv d (moduleLoad d) := by
  refine ⟨⟨?_, ?_, ?_⟩, rfl, ?_⟩ <;>
    simp [moduleLoad, Heap.alloc, Heap.read, ModuleState.valid, listRead]

/-- C1: for every allowance-policy value, Cmd2Console.__init__ passes the
policy-dependent flags to the underlying engine: under ALWAYS force_terminal
is true and force_interactive is the interactivity reported by a throwaway
console bound to the same handle; under NEVER force_terminal is false and
force_interactive is not passed; under TERMINAL neither flag is passed. -/
theorem claim_C1_console_policy_flags (s : ModuleState) (file : PyFile) :
    (s.allow_style = AllowStyle.ALWAYS →
      (Cmd2Console.init s file).2.force_terminal = some true ∧
      (Cmd2Console.init s file).2.force_interactive = some (consoleIsInteractive file)) ∧
    (s.allow_style = AllowStyle.NEVER →
      (Cmd2Console.init s file).2.force_terminal = some false ∧
      (Cmd2Console.init s file).2.force_interactive = none) ∧
    (s.allow_style = AllowStyle.TERMINAL →
      (Cmd2Console.init s file).2.force_terminal = none ∧
      (Cmd2Console.init s file).2.force_interactive = none) := by
  cases h : s.allow_style <;> simp [Cmd2Console.init, h]

/-- Witness for C1 at the ALWAYS policy over an interactive handle. -/
theorem claim_C1_console_policy_flags_witness :
    (Cmd2Console.init { moduleLoad [] with allow_style := AllowStyle.ALWAYS }
        ⟨true⟩).2.force_terminal = some true ∧
    (Cmd2Console.init { moduleLoad [] with allow_style := AllowStyle.ALWAYS }
        ⟨true⟩).2.force_interactive = some (consoleIsInteractive ⟨true⟩) :=
  (claim_C1_console_policy_flags
    { moduleLoad [] with allow_style := AllowStyle.ALWAYS } ⟨true⟩).1 rfl

/-- C2: on_broken_pipe never lets SystemExit escape, and whenever the
superclass call behaves as documented (returns or raises SystemExit) the
handler raises a catchable BrokenPipeError to the caller. -/
theorem claim_C2_broken_pipe_outcome (superOutcome : Outcome) :
    on_broken_pipe superOutcome ≠ Outcome.exn PyExc.SystemExit ∧
    ((superOutcome = Outcome.ok ∨ superOutcome = Outcome.exn PyExc.SystemExit) →
      on_broken_pipe superOutcome = Outcome.exn PyExc.BrokenPipeError) := by
  constructor
  · cases superOutcome with
    | ok => simp [on_broken_pipe]
    | exn e => cases e <;> simp [on_broken_pipe]
  · rintro (rfl | rfl) <;> rfl

/-- Witness for C2 where the superclass call raises SystemExit. -/
theorem claim_C2_broken_pipe_outcome_witness :
    on_broken_pipe (Outcome.exn PyExc.SystemExit) ≠ Outcome.exn PyExc.SystemExit ∧
    on_broken_pipe (Outcome.exn PyExc.SystemExit) = Outcome.exn PyExc.BrokenPipeError :=
  ⟨(claim_C2_broken_pipe_outcome (Outcome.exn PyExc.SystemExit)).1,
   (claim_C2_broken_pipe_outcome (Outcome.exn PyExc.SystemExit)).2 (Or.inr rfl)⟩

/-- C3: starting from module load, set_theme t followed by set_theme None
leaves the formatter's style table equal to its state before any theme was
set, and the restoration installs a fresh copy, so a later in-place mutation
of the table does not alter the stored defaults snapshot. -/
theorem claim_C3_theme_roundtrip (d : StyleDict) (t : Theme) (key : String) (v : Style) :
    (set_theme (set_theme (moduleLoad d) (some t)) none).heap.read
        (set_theme (set_theme (moduleLoad d) (some t)) none).RichHelpFormatter_styles
      = (moduleLoad d).heap.read (moduleLoad d).RichHelpFormatter_styles ∧
    (mutateFormatterEntry (set_theme (set_theme (moduleLoad d) (some t)) none) key v).heap.read
        (mutateFormatterEntry (set_theme (set_theme (moduleLoad d) (some t)) none) key
          v).DEFAULT_RICH_ARGPARSE_STYLES
      = (set_theme (set_theme (moduleLoad d) (some t)) none).heap.read
          (set_theme (set_theme (moduleLoad d) (some t)) none).DEFAULT_RICH_ARGPARSE_STYLES :=
  ⟨rfl, rfl⟩

/-- C4: for a theme whose style names are distinct, set_theme overwrites
exactly the shared names in the formatter's table: every shared name maps to
the theme's style, names absent from the theme keep their style, and the
table's key list is unchanged (no insertion). -/
theorem claim_C4_theme_overwrite (s : ModuleState) (t : Theme)
    (hv : s.RichHelpFormatter_styles < s.heap.cells.length)
    (hnd : (t.styles.map Prod.fst).Nodup) :
    (∀ n st, dictLookup t.styles n = some st →
      dictMem (s.heap.read s.RichHelpFormatter_styles) n = true →
      dictLookup ((set_theme s (some t)).heap.read
        (set_theme s (some t)).RichHelpFormatter_styles) n = some st) ∧
    (∀ n, dictLookup t.styles n = none →
      dictLookup ((set_theme s (some t)).heap.read
          (set_theme s (some t)).RichHelpFormatter_styles) n
        = dictLookup (s.heap.read s.RichHelpFormatter_styles) n) ∧
    ((set_theme s (some t)).heap.read
        (set_theme s (some t)).RichHelpFormatter_styles).map Prod.fst
      = (s.heap.read s.RichHelpFormatter_styles).map Prod.fst := by
  have hread : (set_theme s (some t)).heap.read
      (set_theme s (some t)).RichHelpFormatter_styles
      = applyTheme t.styles (s.heap.read s.RichHelpFormatter_styles) := by
    simp only [set_theme, Heap.write, Heap.read]
    exact listRead_listWrite_self _ _ _ hv
  refine ⟨?_, ?_, ?_⟩
  · intro n st hin hmem
    rw [hread]
    exact applyTheme_lookup_shared t.styles _ n st hnd hin hmem
  · intro n hnone
    rw [hread]
    exact applyTheme_lookup_of_none t.styles _ n hnone
  · rw [hread]
    exact applyTheme_map_fst t.styles _

/-- Witness for C4: a concrete table and theme sharing one name; the key
list of the table is unchanged. -/
theorem claim_C4_theme_overwrite_witness :
    ((set_theme (moduleLoad [("usage", ⟨some "blue"⟩)])
        (some ⟨[("usage", ⟨some "red"⟩), ("missing", ⟨none⟩)]⟩)).heap.read
      (set_theme (moduleLoad [("usage", ⟨some "blue"⟩)])
        (some ⟨[("usage", ⟨some "red"⟩), ("missing", ⟨none⟩)]⟩)).RichHelpFormatter_styles).map
        Prod.fst
      = ((moduleLoad [("usage", ⟨some "blue"⟩)]).heap.read
          (moduleLoad [("usage", ⟨some "blue"⟩)]).RichHelpFormatter_styles).map Prod.fst :=
  (claim_C4_theme_overwrite (moduleLoad [("usage", ⟨some "blue"⟩)])
    ⟨[("usage", ⟨some "red"⟩), ("missing", ⟨none⟩)]⟩ (by decide) (by decide)).2.2

/-- C5: regardless of policy and theme, every constructed console gets tab
width 4, markup off, emoji off, highlighting off, and the current THEME. -/
theorem claim_C5_fixed_console_params (s : ModuleState) (file : PyFile) :
    (Cmd2Console.init s file).2.tab_size = 4 ∧
    (Cmd2Console.init s file).2.markup = false ∧
    (Cmd2Console.init s file).2.emoji = false ∧
    (Cmd2Console.init s file).2.highlight = false ∧
    (Cmd2Console.init s file).2.theme = s.THEME :=
  ⟨rfl, rfl, rfl, rfl, rfl⟩

/-- C6: str of each AllowStyle member is its declared human-readable value,
and never the symbolic member name. -/
theorem claim_C6_str_is_value :
    AllowStyle.str AllowStyle.ALWAYS = "Always" ∧
    AllowStyle.str AllowStyle.NEVER = "Never" ∧
    AllowStyle.str AllowStyle.TERMINAL = "Terminal" ∧
    ∀ a : AllowStyle, AllowStyle.str a ≠ AllowStyle.pyName a := by
  refine ⟨rfl, rfl, rfl, ?_⟩
  intro a
  cases a <;> decide

/-- Witness for C6 at the TERMINAL member. -/
theorem claim_C6_str_is_value_witness :
    AllowStyle.str AllowStyle.TERMINAL = "Terminal" ∧
    AllowStyle.str AllowStyle.TERMINAL ≠ AllowStyle.pyName AllowStyle.TERMINAL :=
  ⟨claim_C6_str_is_value.2.2.1, claim_C6_str_is_value.2.2.2 AllowStyle.TERMINAL⟩

/-- C7: the defaults snapshot captured at module load is never mutated by
any later module operation: after any sequence of set_theme calls and
console constructions, the snapshot reference still holds exactly the table
contents captured at load, and the reference itself is unchanged. -/
theorem claim_C7_snapshot_immutable (d : StyleDict) (ops : List ModuleOp) :
    (runOps (moduleLoad d) ops).heap.read
        (runOps (moduleLoad d) ops).DEFAULT_RICH_ARGPARSE_STYLES = d ∧
    (runOps (moduleLoad d) ops).DEFAULT_RICH_ARGPARSE_STYLES
      = (moduleLoad d).DEFAULT_RICH_ARGPARSE_STYLES := by
  have h := stateInv_runOps d (moduleLoad d) ops (stateInv_moduleLoad d)
  exact ⟨h.2.2, h.2.1⟩

/-- C8: console construction is read-only with respect to the module's
process-wide state: the state after Cmd2Console.__init__ is the state
before, for every policy, theme, heap, and output handle. -/
theorem claim_C8_console_readonly (s : ModuleState) (file : PyFile) :
    (Cmd2Console.init s file).1 = s := rfl

/-- C9: set_theme accepts every input (it is a total function in this
embedding), stores the argument as the active THEME, and leaves the policy,
the three semantic styles, the snapshot reference, and the snapshot's
contents untouched: its only effects are the THEME and the formatter's
style table. -/
theorem claim_C9_set_theme_total_frame (s : ModuleState) (theme : Option Theme)
    (hv : s.valid) :
    (set_theme s theme).THEME = theme ∧
    (set_theme s theme).allow_style = s.allow_style ∧
    (set_theme s theme).style_success = s.style_success ∧
    (set_theme s theme).style_warning = s.style_warning ∧
    (set_theme s theme).style_failure = s.style_failure ∧
    (set_theme s theme).DEFAULT_RICH_ARGPARSE_STYLES = s.DEFAULT_RICH_ARGPARSE_STYLES ∧
    (set_theme s theme).heap.read (set_theme s theme).DEFAULT_RICH_ARGPARSE_STYLES
      = s.heap.read s.DEFAULT_RICH_ARGPARSE_STYLES := by
  obtain ⟨hf, hd, hne⟩ := hv
  cases theme with
  | none =>
      refine ⟨rfl, rfl, rfl, rfl, rfl, rfl, ?_⟩
      simp only [set_theme, Heap.alloc, Heap.read]
      exact listRead_append_lt _ _ _ hd
  | some t =>
      refine ⟨rfl, rfl, rfl, rfl, rfl, rfl, ?_⟩
      simp only [set_theme, Heap.write, Heap.read]
      exact listRead_listWrite_ne _ _ _ _ hne

/-- Witness for C9: clearing the theme on the freshly loaded module. -/
theorem claim_C9_set_theme_total_frame_witness :
    (set_theme (moduleLoad []) none).THEME = none ∧
    (set_theme (moduleLoad []) none).allow_style = (moduleLoad []).allow_style ∧
    (set_theme (moduleLoad []) none).style_success = (moduleLoad []).style_success ∧
    (set_theme (moduleLoad []) none).style_warning = (moduleLoad []).style_warning ∧
    (set_theme (moduleLoad []) none).style_failure = (moduleLoad []).style_failure ∧
    (set_theme (moduleLoad []) none).DEFAULT_RICH_ARGPARSE_STYLES
      = (moduleLoad []).DEFAULT_RICH_ARGPARSE_STYLES ∧
    (set_theme (moduleLoad []) none).heap.read
        (set_theme (moduleLoad []) none).DEFAULT_RICH_ARGPARSE_STYLES
      = (moduleLoad []).heap.read (moduleLoad []).DEFAULT_RICH_ARGPARSE_STYLES :=
  claim_C9_set_theme_total_frame (moduleLoad []) none
    (by exact ⟨by decide, by decide, by decide⟩)

/-- C10: repr of each AllowStyle member is the quoted human-readable value,
matching Python's repr of the value string, and never the default Enum
representation. -/
theorem claim_C10_repr_is_quoted_value :
    AllowStyle.repr AllowStyle.ALWAYS = "\x27Always\x27" ∧
    AllowStyle.repr AllowStyle.NEVER = "\x27Never\x27" ∧
    AllowStyle.repr AllowStyle.TERMINAL = "\x27Terminal\x27" ∧
    AllowStyle.repr AllowStyle.TERMINAL = pyStrRepr "Terminal" ∧
    ∀ a : AllowStyle, AllowStyle.repr a ≠ AllowStyle.defaultEnumRepr a := by
  refine ⟨by decide, by decide, by decide, rfl, ?_⟩
  intro a
  cases a <;> decide

/-- Witness for C10 at the TERMINAL member. -/
theorem claim_C10_repr_is_quoted_value_witness :
    AllowStyle.repr AllowStyle.TERMINAL = "\x27Terminal\x27" ∧
    AllowStyle.repr AllowStyle.TERMINAL ≠ AllowStyle.defaultEnumRepr AllowStyle.TERMINAL :=
  ⟨claim_C10_repr_is_quoted_value.2.2.1,
   claim_C10_repr_is_quoted_value.2.2.2.2 AllowStyle.TERMINAL⟩
